import Mathlib

/-!
Verification development for the transactional materialization engine of the
nun fetcher: shallow embedding of the state database upsert logic, the
single-file atomic destination writer, the source actions (download and their
revision guard), orphan reconciliation, the GitHub resource-name parse and the
streaming body byte accounting, together with theorems settling the claims of
the specification against that embedding.
-/

namespace Nun

/-- Exceptions raised by the embedded Python code, at the granularity the
claims need. `cancelExc` is CancelException, carrying the optional message
given to `Dst.cancel`; `typeError`, `valueError` and `indexError` are the
standard Python exceptions of those names. -/
inductive PyExc where
  | valueError
  | indexError
  | typeError
  | cancelExc (msg : Option String)
  | permissionError (msg : String)
  | fileNotFoundError (msg : String)
  deriving DecidableEq, Repr

/-! ## Python string split

`pySplit s sep n` embeds the Python expression `s.split(sep, n)`: at most `n`
splits at the leftmost occurrences of `sep`, the remainder kept whole. -/

/-- Remove `sep` from the front of a character list when it is there. -/
def dropSep : List Char → List Char → Option (List Char)
  | [], rest => some rest
  | _ :: _, [] => none
  | s :: ss, c :: cs => if s = c then dropSep ss cs else none

/-- Split a character list at every leftmost occurrence of the non-empty
separator `sep`; `fuel` bounds the recursion and is always given as more than
the length of the input, so it never runs out. -/
def splitChAux (sep : List Char) : Nat → List Char → List Char → List (List Char)
  | 0, acc, _ => [acc.reverse]
  | _ + 1, acc, [] => [acc.reverse]
  | fuel + 1, acc, c :: cs =>
    match dropSep sep (c :: cs) with
    | some rest => acc.reverse :: splitChAux sep fuel [] rest
    | none => splitChAux sep fuel (c :: acc) cs

/-- Python `s.split(sep, maxsplit)` for a non-empty separator. -/
def pySplit (s sep : String) (maxsplit : Nat) : List String :=
  let L := (splitChAux sep.toList (s.toList.length + 1) [] s.toList).map String.mk
  if L.length ≤ maxsplit + 1 then L
  else L.take maxsplit ++ [String.intercalate sep (L.drop maxsplit)]

/-! ## GitHub resource name parsing

Embeds `nun._plt.github.Plt._parse_res_name`.  The Python code is:

```
try:
    owner, repo, ref, src = res_name.split('://', 1)[1].split('/', 3)
except ValueError:
    owner, repo, ref = res_name.split('/', 2)
    src = 'tarball'
return owner, repo, ref if ref != 'latest' else None, src
```

A 4-element unpack of a shorter list raises ValueError, caught by the
`except` clause; the `[1]` subscript raises IndexError (not caught) when the
name has no scheme separator; a failing unpack inside the `except` clause
propagates. -/

/-- Embedding of `Plt._parse_res_name`: returns `(owner, repo, ref, source)`
with `ref = none` when the parsed ref equals `"latest"`. -/
def parseResName (resName : String) :
    Except PyExc (String × String × Option String × String) :=
  match (pySplit resName "://" 1).get? 1 with
  | none => .error .indexError
  | some tail =>
    match pySplit tail "/" 3 with
    | [owner, repo, ref, src] =>
        .ok (owner, repo, (if ref = "latest" then none else some ref), src)
    | _ =>
      match pySplit resName "/" 2 with
      | [owner, repo, ref] =>
          .ok (owner, repo, (if ref = "latest" then none else some ref),
               "tarball")
      | _ => .error .valueError

/-! ## Streaming body byte accounting

Embeds `nun._src.Body` together with `SrcBase.add_size_callback`: every
`read` call reads one chunk from the underlying response stream and adds the
length of the returned chunk to the size counter of the source; `tell`
returns that counter.  The source initializes the counter to `0`. -/

/-- State of a `Body` wrapper: the chunks the underlying raw stream will
return on successive reads, and the size counter of the owning source
(`SrcBase._size_done`). -/
structure Body where
  chunks : List (List Nat)
  sizeDone : Nat
  deriving DecidableEq, Repr

/-- Embedding of `Body.read`: read the next chunk from the raw stream (an
exhausted stream returns the empty chunk), then call
`SrcBase.add_size_callback` with the length of the chunk, and return the
chunk. -/
def Body.read : Body → Body × List Nat
  | ⟨[], n⟩ => (⟨[], n + 0⟩, [])
  | ⟨c :: rest, n⟩ => (⟨rest, n + c.length⟩, c)

/-- Embedding of `Body.tell`: returns `SrcBase.size_done`. -/
def Body.tell (b : Body) : Nat := b.sizeDone

/-- Run `k` successive `read` calls, collecting the returned chunks. -/
def Body.readMany : Nat → Body → Body × List (List Nat)
  | 0, b => (b, [])
  | k + 1, b =>
    let p := b.read
    let q := Body.readMany k p.1
    (q.1, p.2 :: q.2)

/-! ## Content digests

The engine hashes contents with blake2b and only ever compares digests for
equality.  The embedding models the digest of a byte list as the byte list
itself wrapped in its own type (a collision-free model of the hash): two
digests are equal exactly when the hashed contents are equal, which is the
property every comparison in the code relies on. -/

/-- Digest of a content, as stored in the `digest` column and compared by the
destination writer. -/
structure Digest where
  data : List Nat
  deriving DecidableEq, Repr

/-- Collision-free model of `hashlib.blake2b(...).hexdigest()`. -/
def blake2bHex (data : List Nat) : Digest := ⟨data⟩

/-! ## The relational store

Embeds the `src` and `dst` tables of `nun._db._Database` with the generic
`_sql_insert`, `_sql_update` and `_sql_insert_or_update` logic specialized to
each table.  A NULL-able column is an `Option`; `_sql_update` keeps exactly
the columns whose new value is non-null and differs from the reference row
value (a missing reference row behaves as an empty dict whose `get` returns
`None`). -/

/-- Row of the `src` table. -/
structure SrcRow where
  id : Nat
  tskId : Option Nat
  resId : Option Nat
  name : Option String
  revision : Option String
  size : Option Nat
  deriving DecidableEq, Repr

/-- Row of the `dst` table. -/
structure DstRow where
  id : Nat
  tskId : Option Nat
  resId : Option Nat
  srcId : Option Nat
  path : Option String
  digest : Option Digest
  stMode : Option Nat
  stUid : Option Nat
  stGid : Option Nat
  stSize : Option Nat
  stMtime : Option Nat
  stCtime : Option Nat
  deriving DecidableEq, Repr

/-- The persisted state: the `src` and `dst` tables, in insertion order. -/
structure Store where
  src : List SrcRow
  dst : List DstRow
  deriving DecidableEq, Repr

/-- Column kept by `_sql_update` when the new value is non-null and differs
from the reference row value; otherwise the stored value is unchanged. -/
def updCol {α : Type} [DecidableEq α] (new refv old : Option α) : Option α :=
  if new ≠ none ∧ new ≠ refv then new else old

/-- Next rowid handed out by an insert. -/
def nextId (ids : List Nat) : Nat := ids.foldr max 0 + 1

/-- Apply the `_sql_update` column filter to one `src` row. -/
def updSrcRow (row : SrcRow) (ref : Option SrcRow) (tskId resId : Option Nat)
    (name revision : Option String) (size : Option Nat) : SrcRow :=
  { row with
    tskId := updCol tskId (ref.bind (·.tskId)) row.tskId
    resId := updCol resId (ref.bind (·.resId)) row.resId
    name := updCol name (ref.bind (·.name)) row.name
    revision := updCol revision (ref.bind (·.revision)) row.revision
    size := updCol size (ref.bind (·.size)) row.size }

/-- Apply the `_sql_update` column filter to one `dst` row. -/
def updDstRow (row : DstRow) (ref : Option DstRow) (tskId resId srcId : Option Nat)
    (path : Option String) (digest : Option Digest)
    (stMode stUid stGid stSize stMtime stCtime : Option Nat) : DstRow :=
  { row with
    tskId := updCol tskId (ref.bind (·.tskId)) row.tskId
    resId := updCol resId (ref.bind (·.resId)) row.resId
    srcId := updCol srcId (ref.bind (·.srcId)) row.srcId
    path := updCol path (ref.bind (·.path)) row.path
    digest := updCol digest (ref.bind (·.digest)) row.digest
    stMode := updCol stMode (ref.bind (·.stMode)) row.stMode
    stUid := updCol stUid (ref.bind (·.stUid)) row.stUid
    stGid := updCol stGid (ref.bind (·.stGid)) row.stGid
    stSize := updCol stSize (ref.bind (·.stSize)) row.stSize
    stMtime := updCol stMtime (ref.bind (·.stMtime)) row.stMtime
    stCtime := updCol stCtime (ref.bind (·.stCtime)) row.stCtime }

/-- Embedding of `_Database.set_src` through `_sql_insert_or_update`: when a
`src_id` or a reference row is given, UPDATE the row whose rowid is `src_id`
(falling back to the reference row id) and return that rowid; otherwise
INSERT a new row and return its fresh rowid. -/
def Store.setSrc (st : Store) (tskId : Nat) (resId srcId : Option Nat)
    (name revision : Option String) (size : Option Nat)
    (refValues : Option SrcRow) : Store × Nat :=
  match srcId, refValues with
  | none, none =>
    let i := nextId (st.src.map (·.id))
    ({ st with src := st.src ++ [⟨i, some tskId, resId, name, revision, size⟩] }, i)
  | _, _ =>
    let rowId := srcId.getD (match refValues with | some r => r.id | none => 0)
    ({ st with
       src := st.src.map (fun r =>
         if r.id = rowId then
           updSrcRow r refValues (some tskId) resId name revision size
         else r) }, rowId)

/-- Embedding of `_Database.set_dst`.  The source faithfully passes `src_id`
as the second positional argument of `_sql_insert_or_update`, which is the
`row_id` parameter; so a call with a non-null `src_id` always takes the
UPDATE branch against the `dst` row whose rowid equals `src_id`, and the
INSERT branch is reached only when both `src_id` and the reference row are
null. -/
def Store.setDst (st : Store) (tskId : Nat) (resId srcId : Option Nat)
    (path : Option String) (digest : Option Digest)
    (stMode stUid stGid stSize stMtime stCtime : Option Nat)
    (refValues : Option DstRow) : Store × Nat :=
  match srcId, refValues with
  | none, none =>
    let i := nextId (st.dst.map (·.id))
    ({ st with dst := st.dst ++
        [⟨i, some tskId, resId, none, path, digest,
          stMode, stUid, stGid, stSize, stMtime, stCtime⟩] }, i)
  | _, _ =>
    let rowId := srcId.getD (match refValues with | some r => r.id | none => 0)
    ({ st with
       dst := st.dst.map (fun r =>
         if r.id = rowId then
           updDstRow r refValues (some tskId) resId srcId path digest
             stMode stUid stGid stSize stMtime stCtime
         else r) }, rowId)

/-- Embedding of `_Database.get_src`: `None` resource id returns no row, else
the first `src` row matching `(res_id, name)`. -/
def Store.getSrc (st : Store) (resId : Option Nat) (name : String) : Option SrcRow :=
  match resId with
  | none => none
  | some rid => st.src.find? (fun r => r.resId == some rid && r.name == some name)

/-- Embedding of `_Database.get_dst`: first `dst` row with the given path. -/
def Store.getDst (st : Store) (path : String) : Option DstRow :=
  st.dst.find? (fun r => r.path == some path)

/-- Embedding of `_Database.get_dst_by_src`. -/
def Store.getDstBySrc (st : Store) (srcId : Nat) : List DstRow :=
  st.dst.filter (fun r => r.srcId == some srcId)

/-- Embedding of `_Database.get_src_by_res`. -/
def Store.getSrcByRes (st : Store) (resId : Nat) : List SrcRow :=
  st.src.filter (fun r => r.resId == some resId)

/-- Embedding of `_Database.del_dst`. -/
def Store.delDst (st : Store) (dstId : Nat) : Store :=
  { st with dst := st.dst.filter (fun r => !(r.id == dstId)) }

/-- Embedding of `_Database.del_src`: deletes the `src` row and every `dst`
row whose `src_id` references it. -/
def Store.delSrc (st : Store) (srcId : Nat) : Store :=
  { st with
    src := st.src.filter (fun r => !(r.id == srcId))
    dst := st.dst.filter (fun r => !(r.srcId == some srcId)) }

/-! ## Filesystem

A flat model of the paths the engine touches: a list of regular files keyed
by raw (unnormalized) path strings, and a list of directories.  The engine
itself never normalizes the strings it joins, so neither does the model; the
escape analysis for extraction resolves the strings separately. -/

/-- Filesystem state. -/
structure FS where
  files : List (String × List Nat)
  dirs : List String
  deriving DecidableEq, Repr

/-- Content of the regular file at `p`, when it exists. -/
def FS.lookup (fs : FS) (p : String) : Option (List Nat) :=
  (fs.files.find? (fun e => e.1 == p)).map (·.2)

/-- Create or overwrite the regular file at `p`. -/
def FS.put (fs : FS) (p : String) (c : List Nat) : FS :=
  { fs with files := fs.files.filter (fun e => !(e.1 == p)) ++ [(p, c)] }

/-- Delete the regular file at `p` (no effect when absent). -/
def FS.del (fs : FS) (p : String) : FS :=
  { fs with files := fs.files.filter (fun e => !(e.1 == p)) }

/-- Embedding of `os.path.isdir`. -/
def FS.isDir (fs : FS) (p : String) : Bool := fs.dirs.contains p

/-- Embedding of `nun._dst.remove_existing`: `os.remove` swallowing
FileNotFoundError.  Calling it on `None` (as the backup-restore branch of
`Dst.cancel` does) is `os.remove(None)`, which raises TypeError. -/
def removeExisting (p : Option String) (fs : FS) : Except PyExc FS :=
  match p with
  | none => .error .typeError
  | some p => .ok (fs.del p)

/-! ## Destination writer

Embeds `nun._dst.Dst` for `dst_type="file"` — the staging, hashing,
comparison, swap, backup and rollback protocol.  The staging and backup
suffixes are `.prt.nun` and `.bak.nun` (`APP_NAME` is `nun`).  `fileObj`
holds the bytes written so far through the open staging handle, which also
stands for the running `blake2b` hash object since the digest model is the
content itself. -/

/-- Staging suffix `.prt.<app>`. -/
def prtExt : String := ".prt.nun"

/-- Backup suffix `.bak.<app>`. -/
def bakExt : String := ".bak.nun"

/-- Message of the conflict cancellation raised by `Dst.__init__`. -/
def conflictMsg (path : String) : String :=
  "Destination " ++ path ++ " conflits with another resource"

/-- Message of the user-modified cancellation raised by `Dst.__init__`. -/
def modifiedMsg (path : String) : String :=
  "Destination " ++ path ++ " was modified since installation"

/-- Message of the already-exists cancellation raised by `Dst.close`. -/
def alreadyExistsMsg (path : String) : String :=
  "Destination " ++ path ++ " already exists with a different content"

/-- In-memory state of a `Dst` instance for a regular-file destination. -/
structure DstSt where
  path : String
  resId : Nat
  dbInfo : Option DstRow
  hashOld : Option Digest
  hashNew : Option Digest
  pathPart : Option String
  pathBak : Option String
  fileObj : Option (List Nat)
  update : Bool
  force : Bool
  mtime : Option Nat
  deriving DecidableEq, Repr

/-- Embedding of `Dst._check_current` for a regular file: the digest of the
existing content, or `None` (the falsy empty string) when the path does not
exist. -/
def checkCurrent (fs : FS) (path : String) : Option Digest :=
  (fs.lookup path).map blake2bHex

/-- Embedding of `Dst.cancel`: close the staging handle, remove the staging
file, and when a backup is recorded and exists on disk, run the restore
branch — which first calls `remove_existing(self._path_part)` (always `None`
at that point, since the first block just cleared it) and then renames the
backup over the destination.  A non-`None` message raises CancelException at
the end. -/
def DstSt.cancel (d : DstSt) (fs : FS) (msg : Option String) :
    Except PyExc (DstSt × FS) := do
  let d := { d with fileObj := none }
  let (d, fs) :=
    match d.pathPart with
    | some pp => ({ d with pathPart := none }, fs.del pp)
    | none => (d, fs)
  let (d, fs) ←
    match d.pathBak with
    | some bak =>
      if (fs.lookup bak).isSome then do
        let fs ← removeExisting d.pathPart fs
        let fs := match fs.lookup bak with
          | some c => (fs.del bak).put d.path c
          | none => fs
        pure ({ d with pathBak := none }, fs)
      else
        pure ({ d with pathBak := none }, fs)
    | none => pure (d, fs)
  match msg with
  | some m => .error (.cancelExc (some m))
  | none => .ok (d, fs)

/-- Embedding of `Dst.__init__` for a file destination: load the `dst` row
for the path, cancel with a conflict message when the row belongs to another
resource, load the stored digest, cancel with a user-modified message when
the stored digest differs from the current content without `force`, then
open the staging file for writing. -/
def dstInit (store : Store) (fs : FS) (path : String) (resId : Nat)
    (mtime : Option Nat) (force : Bool) : Except PyExc (DstSt × FS) := do
  let dbInfo := store.getDst path
  let d0 : DstSt :=
    { path := path, resId := resId, dbInfo := dbInfo, hashOld := none
      hashNew := none, pathPart := none, pathBak := none, fileObj := none
      update := false, force := force, mtime := mtime }
  let hashOld ←
    match dbInfo with
    | some row =>
      if !(some resId == row.resId) then
        (do let _ ← d0.cancel fs (some (conflictMsg path)); pure none)
      else
        pure row.digest
    | none => pure (none : Option Digest)
  let d0 := { d0 with hashOld := hashOld }
  if !force && hashOld.isSome && !(hashOld == checkCurrent fs path) then do
    let _ ← d0.cancel fs (some (modifiedMsg path))
    pure (d0, fs)
  else
    let pp := path ++ prtExt
    .ok ({ d0 with pathPart := some pp, fileObj := some [] }, fs.put pp [])

/-- Embedding of the bytes branch of `Dst.write` for a file destination:
update the running hash and append to the staging file. -/
def DstSt.write (d : DstSt) (fs : FS) (data : List Nat) : DstSt × FS :=
  match d.fileObj, d.pathPart with
  | some buf, some pp =>
    ({ d with fileObj := some (buf ++ data) },
     fs.put pp ((fs.lookup pp).getD [] ++ data))
  | _, _ => (d, fs)

/-- Embedding of `Dst.close`: finalize the digest of the written content,
cancel silently when it equals the stored digest, and when there is no
stored digest but the path exists on disk without `force`, cancel — with an
already-exists message when the on-disk digest differs from the new digest,
silently when it matches.  Every other case marks the destination
update-required. -/
def DstSt.close (d : DstSt) (fs : FS) : Except PyExc (DstSt × FS) :=
  match d.fileObj with
  | none => .ok (d, fs)
  | some written =>
    let hashNew := blake2bHex written
    let d := { d with fileObj := none, hashNew := some hashNew }
    if d.hashOld == some hashNew then
      d.cancel fs none
    else if !d.force && !d.hashOld.isSome && (checkCurrent fs d.path).isSome then
      if !(some hashNew == checkCurrent fs d.path) then
        d.cancel fs (some (alreadyExistsMsg d.path))
      else
        d.cancel fs none
    else
      .ok ({ d with update := true }, fs)

/-- Embedding of `Dst.move`: when update-required, back the destination up
(best effort), move the staged content over the destination path and forget
the staging path.  The stat copy and mtime update only touch metadata the
filesystem model does not carry. -/
def DstSt.move (d : DstSt) (fs : FS) : Except PyExc (DstSt × FS) :=
  if d.update then
    let bak := d.path ++ bakExt
    let (d, fs) :=
      match fs.lookup d.path with
      | some c => ({ d with pathBak := some bak }, (fs.del d.path).put bak c)
      | none => (d, fs)
    match d.pathPart with
    | none => .error .typeError
    | some pp =>
      match fs.lookup pp with
      | none => .error (.fileNotFoundError pp)
      | some c => .ok ({ d with pathPart := none }, (fs.del pp).put d.path c)
  else
    .ok (d, fs)

/-- Embedding of `Dst.clear`: unlink the backup file when one is recorded. -/
def DstSt.clear (d : DstSt) (fs : FS) : DstSt × FS :=
  match d.pathBak with
  | some bak => ({ d with pathBak := none }, fs.del bak)
  | none => (d, fs)

/-- Embedding of `Dst.db_update`: write the `dst` row through
`_Database.set_dst` when update-required or previously unrecorded, else
return the recorded row id unchanged. -/
def DstSt.dbUpdate (d : DstSt) (st : Store) (tskId resId srcId : Nat) :
    Store × Nat :=
  if d.update || !d.dbInfo.isSome then
    st.setDst tskId (some resId) (some srcId) (some d.path) d.hashNew
      (some 0) (some 0) (some 0) (some 0) (some 0) (some 0) d.dbInfo
  else
    (st, (match d.dbInfo with | some r => r.id | none => 0))

/-- Embedding of the per-member `except CancelException: continue` handler
of the archive extraction loops (`nun._src.tar.Src._extract` and
`nun._src.zip.Src._extract`): true exactly for the exceptions it swallows. -/
def memberExceptCaught : PyExc → Bool
  | .cancelExc _ => true
  | _ => false

/-! ## Destination paths

Embeds `SrcBase._set_path` and the posix path functions it uses.  Paths stay
raw strings as in the source; `resolveAbs` canonicalizes an absolute path
into its segment list for the escape analysis only. -/

/-- Embedding of `os.path.isabs` for posix paths. -/
def pyIsAbs (p : String) : Bool :=
  match p.toList with
  | '/' :: _ => true
  | _ => false

/-- Embedding of the Python string test `path.startswith("..")`. -/
def startsDotDot (p : String) : Bool :=
  match p.toList with
  | '.' :: '.' :: _ => true
  | _ => false

/-- Embedding of `os.path.join(a, b)` for the shapes the engine produces: a
directory without trailing slash joined with a relative path. -/
def pyJoin (a b : String) : String :=
  if pyIsAbs b then b else a ++ "/" ++ b

/-- Join segments with slashes. -/
def intercalateSlash : List String → String
  | [] => ""
  | [s] => s
  | s :: rest => s ++ "/" ++ intercalateSlash rest

/-- Embedding of `pathlib.PurePath(p).parts`: the root marker `/` when the
path is absolute, then the non-empty segments with single dots dropped. -/
def purePathParts (p : String) : List String :=
  let segs := (splitChAux ['/'] (p.toList.length + 1) [] p.toList).map String.mk
  let core := segs.filter (fun s => decide (s ≠ "" ∧ s ≠ "."))
  if pyIsAbs p then "/" :: core else core

/-- Embedding of `str(PurePath(*parts))`. -/
def purePathStr (parts : List String) : String :=
  match parts with
  | [] => "."
  | "/" :: rest => "/" ++ intercalateSlash rest
  | _ => intercalateSlash parts

/-- Embedding of `os.path.dirname` for posix paths. -/
def dirnameStr (p : String) : String :=
  let r := (p.toList.reverse).dropWhile (fun c => decide (c ≠ '/'))
  match r with
  | '/' :: [] => "/"
  | '/' :: rest => String.mk rest.reverse
  | _ => ""

/-- Embedding of `SrcBase._set_path`: strip leading components, reject a
path that is absolute or starts with the string `..` unless trusted, return
absolute paths unchanged, and otherwise place the path inside the output
directory. -/
def setPath (trusted : Bool) (srcName output : String) (stripDefault : Nat)
    (fs : FS) (path : String) (targetIsDir : Bool) (stripArg : Option Nat) :
    Except PyExc String :=
  let strip := stripArg.getD stripDefault
  let path := if strip ≠ 0 then purePathStr ((purePathParts path).drop strip)
              else path
  let absolute := pyIsAbs path
  if !trusted && (absolute || startsDotDot path) then
    .error (.permissionError srcName)
  else if absolute then
    .ok path
  else if fs.isDir output then
    (if targetIsDir then .ok output else .ok (pyJoin output path))
  else if !(fs.isDir (dirnameStr output)) then
    .error (.fileNotFoundError (dirnameStr output))
  else
    .ok output

/-- Canonical segment list of an absolute posix path: `..` pops a segment
(staying at the root), the remaining segments stack up. -/
def resolveAbs (p : String) : List String :=
  let segs := match purePathParts p with
    | "/" :: rest => rest
    | l => l
  segs.foldl (fun acc s => if s = ".." then acc.dropLast else acc ++ [s]) []

/-- The absolute path `p` lies in the subtree of the directory `dir` when
the canonical segments of `dir` lead the canonical segments of `p`. -/
def underDir (dir p : String) : Bool :=
  (resolveAbs p).take (resolveAbs dir).length == resolveAbs dir

/-! ## Source actions

Embeds the front guard `SrcBase._cancel`, the `download` action,
`SrcBase._db_update`, `SrcBase.remove_orphans` and the orphan handling of
`Res._do_action` / `Res._remove_src`.  A world is the store plus the
filesystem. -/

/-- The value of `SrcBase._dst_ids`: `noneV` is Python `None` (initial),
`unchanged` is the Python literal `True` assigned by `SrcBase._cancel`, and
`ids` is the set of destination row ids collected by `_db_update`. -/
inductive DstIds where
  | noneV
  | unchanged
  | ids (l : List Nat)
  deriving DecidableEq, Repr

/-- Store plus filesystem. -/
structure World where
  store : Store
  fs : FS
  deriving DecidableEq, Repr

/-- Embedding of `SrcBase._cancel`: skip when this is an unforced update, a
prior `src` row exists for the resource and source name, and the stored
revision equals the current revision. -/
def srcCancelGuard (updateFlag force : Bool) (dbInfo : Option SrcRow)
    (revision : Option String) : Bool :=
  updateFlag && !force &&
    (match dbInfo with
     | some row => revision == row.revision
     | none => false)

/-- Result of one source action: the world after it, the number of content
bytes streamed into a destination, the `_dst_ids` value and the `_src_id`
value (used afterwards by `remove_orphans`). -/
structure ActionResult where
  world : World
  bytesWritten : Nat
  dstIds : DstIds
  srcId : Option Nat
  deriving DecidableEq, Repr

/-- Embedding of `SrcBase.download` for a plain file source: front guard,
path resolution with `strip_components=0`, the full destination write
protocol, then `_db_update` writing the `src` row (insert or update against
the prior row) and the `dst` row through `set_dst`. -/
def downloadRun (resId : Nat) (name : String) (revision : Option String)
    (content : List Nat) (mtime : Option Nat) (output : String)
    (force updateFlag : Bool) (tskId : Nat) (w : World) :
    Except PyExc ActionResult := do
  let dbInfo := w.store.getSrc (some resId) name
  if srcCancelGuard updateFlag force dbInfo revision then
    pure ⟨w, 0, .unchanged, dbInfo.map (·.id)⟩
  else do
    let path ← setPath false name output 0 w.fs name false (some 0)
    let (d, fs) ← dstInit w.store w.fs path resId mtime force
    let (d, fs) := d.write fs content
    let (d, fs) ← d.close fs
    let (d, fs) ← d.move fs
    let (d, fs) := d.clear fs
    let (d, fs) ← d.cancel fs none
    let (st, srcId) := w.store.setSrc tskId (some resId) none (some name)
      revision (some content.length) dbInfo
    let (st, dstId) := d.dbUpdate st tskId resId srcId
    pure ⟨⟨st, fs⟩, content.length, .ids [dstId], some srcId⟩

/-- Embedding of `SrcBase.remove_orphans`: for every `dst` row of this
source whose id is not a member of `_dst_ids`, unlink its path and delete
the row.  A membership test against the `True` sentinel left by the front
guard (or against the initial `None`) is the Python expression
`dst_row["id"] not in dst_ids`, a TypeError. -/
def removeOrphansRun (dstIds : DstIds) (srcId : Option Nat) (w : World) :
    Except PyExc World :=
  let rows := match srcId with
    | some i => w.store.getDstBySrc i
    | none => []
  rows.foldlM (fun w row =>
    match dstIds with
    | .ids l =>
      if row.id ∈ l then pure w
      else do
        let fs ← removeExisting row.path w.fs
        pure ⟨w.store.delDst row.id, fs⟩
    | _ => .error .typeError) w

/-- Embedding of `Res._remove_src`: unlink every destination path of the
source, then delete the source row and its destination rows. -/
def removeSrcRun (srcId : Nat) (w : World) : Except PyExc World := do
  let fs ← (w.store.getDstBySrc srcId).foldlM
    (fun fs row => removeExisting row.path fs) w.fs
  pure ⟨w.store.delSrc srcId, fs⟩

/-- Embedding of the orphan-source pass of `Res._do_action`: every `src` row
of the resource whose id is not among the sources of the current transaction
is fully removed. -/
def removeOrphanSrcsRun (resId : Nat) (live : List Nat) (w : World) :
    Except PyExc World :=
  (w.store.getSrcByRes resId).foldlM
    (fun w row => if row.id ∈ live then pure w else removeSrcRun row.id w) w

/-! ## Concrete scenarios

Worlds and runs used by the theorems below.  `runOnce` is one source action
as `Res._do_action` drives it: the `download` call followed by the
`remove_orphans` call of the same source. -/

/-- Initial world: empty store, an existing empty output directory. -/
def w0 : World := ⟨⟨[], []⟩, ⟨[], ["/out"]⟩⟩

/-- One full source pass of `Res._do_action`: the action, then the orphan
destination reconciliation of that source. -/
def runOnce (name : String) (rev : Option String) (c : List Nat)
    (updateFlag : Bool) (tskId : Nat) (w : World) :
    Except PyExc (World × Nat) := do
  let r ← downloadRun 1 name rev c none "/out" false updateFlag tskId w
  let w2 ← removeOrphansRun r.dstIds r.srcId r.world
  pure (w2, r.bytesWritten)

/-- World after a first download of source `f` with revision `rev` and
content `c` into the empty world: one `src` row, no `dst` row (`set_dst`
takes its UPDATE branch), the file on disk. -/
def w1Run (rev : Option String) (c : List Nat) : World :=
  ⟨⟨[⟨1, some 1, some 1, some "f", rev, some c.length⟩], []⟩,
   ⟨[("/out/f", c)], ["/out"]⟩⟩

/-- Update scenario in which the remote stops providing file `F`: first
transaction materializes sources `F` and `G`, second transaction (an update)
only provides `G` with an unchanged revision; both end with the orphan
passes of `Res._do_action`.  Returns the on-disk contents at the two paths,
the remaining `src` row ids and the number of `dst` rows. -/
def vanishedSrcScenario :
    Except PyExc (Option (List Nat) × Option (List Nat) × List Nat × Nat) := do
  let r1 ← runOnce "F" (some "rF") [1] false 1 w0
  let r2 ← runOnce "G" (some "rG") [2] false 1 r1.1
  let w1 ← removeOrphanSrcsRun 1 [1, 2] r2.1
  let r3 ← runOnce "G" (some "rG") [2] true 2 w1
  let w2 ← removeOrphanSrcsRun 1 [2] r3.1
  pure (w2.fs.lookup "/out/F", w2.fs.lookup "/out/G",
        w2.store.src.map (fun r => r.id), w2.store.dst.length)

/-- Close of a write of content `[3]` to a path that is not in the store but
already exists on disk with the same content `[3]`, without `force`. -/
def closeSameContentRun : Except PyExc (DstSt × FS) := do
  let (d, fs) ← dstInit ⟨[], []⟩ ⟨[("/q", [3])], []⟩ "/q" 1 none false
  let (d, fs) := d.write fs [3]
  d.close fs

/-- Destination state just after a committed move: the store recorded `/p`
with digest of `[1]`, the file held `[1]`, content `[2]` was staged, closed
and moved, so the backup holds `[1]` and the path holds `[2]`. -/
def movedRun : Except PyExc (DstSt × FS) := do
  let st : Store := ⟨[], [⟨1, some 1, some 1, some 1, some "/p", some ⟨[1]⟩,
    some 0, some 0, some 0, some 0, some 0, some 0⟩]⟩
  let (d, fs) ← dstInit st ⟨[("/p", [1])], []⟩ "/p" 1 none false
  let (d, fs) := d.write fs [2]
  let (d, fs) ← d.close fs
  d.move fs

/-- Cancel requested right after the committed move of `movedRun`. -/
def movedThenCancelRun : Except PyExc (DstSt × FS) := do
  let (d, fs) ← movedRun
  d.cancel fs none

/-- Store in which the path `/p` is claimed by resource 2. -/
def conflictStore : Store :=
  ⟨[], [⟨1, some 1, some 2, some 1, some "/p", some ⟨[1]⟩,
    some 0, some 0, some 0, some 0, some 0, some 0⟩]⟩

/-- State of a file destination after a silent-cancel close: handle closed,
new digest recorded, staging path forgotten. -/
def closedSt (d : DstSt) (written : List Nat) : DstSt :=
  { d with fileObj := none, hashNew := some (blake2bHex written), pathPart := none }

/-- State of a file destination after a close that marks it update-required. -/
def updateReqSt (d : DstSt) (written : List Nat) : DstSt :=
  { d with fileObj := none, hashNew := some (blake2bHex written), update := true }

/-- Pre-close state of a write of `[5]` to the unrecorded path `/w`. -/
def dstW : DstSt :=
  ⟨"/w", 1, none, none, none, some ("/w" ++ prtExt), none, some [5],
   false, false, none⟩

/-- Pre-close state of a write of `[3]` to the unrecorded path `/q`. -/
def dstQ : DstSt :=
  ⟨"/q", 1, none, none, none, some ("/q" ++ prtExt), none, some [3],
   false, false, none⟩

/-- Filesystem where `/q` already holds `[3]` and its staging file is open. -/
def fsQ : FS := ⟨[("/q", [3]), ("/q" ++ prtExt, [3])], []⟩

/-- Store in which the path `/p2` is claimed by resource 9. -/
def conflictStoreW : Store :=
  ⟨[], [⟨1, some 1, some 9, some 1, some "/p2", some ⟨[1]⟩,
    some 0, some 0, some 0, some 0, some 0, some 0⟩]⟩

/-- List find over a filter that removes a different key is unchanged. -/
theorem find?_filter_ne (l : List (String × List Nat)) (p q : String)
    (h : q ≠ p) :
    (l.filter (fun e => !(e.1 == q))).find? (fun e => e.1 == p)
      = l.find? (fun e => e.1 == p) := by
  induction l with
  | nil => rfl
  | cons e rest ih =>
    rcases eq_or_ne e.1 q with he | he
    · have hbp : (e.1 == p) = false := by
        rw [he]; exact beq_eq_false_iff_ne.mpr h
      have hbq : (e.1 == q) = true := by simp [he]
      simp [List.filter_cons, List.find?_cons, hbq, hbp, ih]
    · have hbq : (e.1 == q) = false := beq_eq_false_iff_ne.mpr he
      rcases eq_or_ne e.1 p with hp | hp
      · have hbp : (e.1 == p) = true := by simp [hp]
        simp [List.filter_cons, List.find?_cons, hbq, hbp]
      · have hbp : (e.1 == p) = false := beq_eq_false_iff_ne.mpr hp
        simp [List.filter_cons, List.find?_cons, hbq, hbp, ih]

/-- Deleting one path leaves the lookup of a different path unchanged. -/
theorem FS.lookup_del_ne (fs : FS) (p q : String) (h : q ≠ p) :
    (fs.del q).lookup p = fs.lookup p := by
  simp only [FS.del, FS.lookup, find?_filter_ne fs.files p q h]

/-- A path differs from itself with the staging suffix appended. -/
theorem ne_append_prtExt (p : String) : p ++ prtExt ≠ p := by
  intro h
  have h2 := congrArg String.length h
  rw [String.length_append] at h2
  have h3 : prtExt.length = 8 := rfl
  omega

theorem Body.read_sizeDone (b : Body) :
    (Body.read b).1.sizeDone = b.sizeDone + (Body.read b).2.length := by
  match b with
  | ⟨[], n⟩ => simp [Body.read]
  | ⟨c :: rest, n⟩ => simp [Body.read]

theorem Body.readMany_sizeDone (k : Nat) (b : Body) :
    (Body.readMany k b).1.sizeDone
      = b.sizeDone + (((Body.readMany k b).2).map List.length).sum := by
  induction k generalizing b with
  | zero => simp [Body.readMany]
  | succ k ih =>
    match b with
    | ⟨[], n⟩ =>
      simp [Body.readMany, Body.read, ih]
    | ⟨c :: rest, n⟩ =>
      simp [Body.readMany, Body.read, ih]
      omega

/-- Skip lemma: under the front guard of `SrcBase._cancel` the download
action returns at once, touching nothing. -/
theorem downloadRun_skip (w : World) (resId tskId : Nat) (name output : String)
    (rev : Option String) (c : List Nat) (mtime : Option Nat) (row : SrcRow)
    (h1 : w.store.getSrc (some resId) name = some row)
    (h2 : rev = row.revision) :
    downloadRun resId name rev c mtime output false true tskId w
      = .ok ⟨w, 0, .unchanged, some row.id⟩ := by
  simp [downloadRun, h1, srcCancelGuard, h2]
  rfl

/-- C1: for every source action, when `update` is true, `force` is false, a
prior `src` row exists for the resource and source name, and its stored
revision equals the current revision, the action skips entirely; and running
the same download action twice with identical remote state (same revision
and content) is a no-op after the first run — the second run writes zero
bytes, completes together with its orphan reconciliation without error, and
leaves every destination and store row exactly as the first run left them. -/
theorem download_revision_guard_idempotent :
    (∀ (w : World) (resId tskId : Nat) (name output : String)
       (rev : Option String) (c : List Nat) (mtime : Option Nat) (row : SrcRow),
       w.store.getSrc (some resId) name = some row →
       rev = row.revision →
       downloadRun resId name rev c mtime output false true tskId w
         = .ok ⟨w, 0, .unchanged, some row.id⟩)
  ∧ (∀ (rev : Option String) (c : List Nat),
       runOnce "f" rev c false 1 w0 = .ok (w1Run rev c, c.length)
     ∧ runOnce "f" rev c true 2 (w1Run rev c) = .ok (w1Run rev c, 0)) := by
  refine ⟨fun w resId tskId name output rev c mtime row h1 h2 =>
    downloadRun_skip w resId tskId name output rev c mtime row h1 h2,
    fun rev c => ⟨rfl, ?_⟩⟩
  have h := downloadRun_skip (w1Run rev c) 1 2 "f" "/out" rev c none
    ⟨1, some 1, some 1, some "f", rev, some c.length⟩ rfl rfl
  simp [w1Run] at h
  simp [runOnce, h, removeOrphansRun, w1Run, Store.getDstBySrc]
  rfl

/-- Witness for C1: the guard part applied to the concrete world left by a
first download of revision `r` and content `[7]`. -/
theorem download_revision_guard_idempotent_witness :
    downloadRun 1 "f" (some "r") [7] none "/out" false true 3
      (w1Run (some "r") [7])
      = .ok ⟨w1Run (some "r") [7], 0, .unchanged, some 1⟩ :=
  download_revision_guard_idempotent.1 (w1Run (some "r") [7]) 1 3 "f" "/out"
    (some "r") [7] none ⟨1, some 1, some 1, some "f", some "r", some 1⟩
    (by decide) (by decide)

/-- C2: the untrusted path guard of `SrcBase._set_path` does reject member
paths that are absolute or start with the string `..`, but a member path
with interior `..` components such as `a/../../x` passes the guard and the
committed destination path `/out/a/../../x` resolves to `/x`, outside the
subtree of the output directory — the no-escape property of the claim fails
on the code. -/
theorem extract_untrusted_interior_dotdot_escapes :
    setPath false "arch" "/out" 0 ⟨[], ["/out"]⟩ "a/../../x" false none
      = .ok "/out/a/../../x"
  ∧ resolveAbs "/out/a/../../x" = ["x"]
  ∧ underDir "/out" "/out/a/../../x" = false
  ∧ setPath false "arch" "/out" 0 ⟨[], ["/out"]⟩ "../evil" false none
      = .error (.permissionError "arch")
  ∧ setPath false "arch" "/out" 0 ⟨[], ["/out"]⟩ "/abs/evil" false none
      = .error (.permissionError "arch") :=
  ⟨rfl, rfl, rfl, rfl, rfl⟩

/-- C3: in the update scenario where the remote stops providing file `F`,
the transaction completes with the `src` row of `F` deleted (only row id 2
remains) but the file `F` is still on disk with its old content — because
`set_dst` never inserted a `dst` row, orphan reconciliation finds nothing to
unlink, contradicting the claim that `F` is absent from disk. -/
theorem update_vanished_file_remains_on_disk :
    vanishedSrcScenario = .ok (some [1], some [2], [2], 0) := rfl

/-- C4: `set_dst` called with a source id, a path and no reference row — the
exact call `Dst.db_update` makes for a previously unrecorded destination —
inserts nothing and returns the source id (it runs the UPDATE branch against
the `dst` rowid equal to `src_id`), while the analogous `set_src` call with
no row id and no reference row does insert a fresh row and return its id. -/
theorem set_dst_update_branch_never_inserts :
    Store.setDst ⟨[], []⟩ 1 (some 1) (some 5) (some "/p") (some ⟨[9]⟩)
      (some 0) (some 0) (some 0) (some 0) (some 0) (some 0) none
      = (⟨[], []⟩, 5)
  ∧ Store.setSrc ⟨[], []⟩ 1 (some 1) none (some "f") (some "r") (some 3) none
      = (⟨[⟨1, some 1, some 1, some "f", some "r", some 3⟩], []⟩, 1) :=
  ⟨rfl, rfl⟩

/-- C8: parsing the GitHub resource name `github://acme/proj/v1`, which has
no selector part, yields owner `github:`, repo the empty string and ref
`acme/proj/v1` (the fallback splits the full name instead of the part after
the scheme), not owner `acme`, repo `proj`, ref `v1`; the four-part shape
and the `latest` handling behave as the claim states. -/
theorem parse_res_name_three_part_misparse :
    parseResName "github://acme/proj/v1"
      = .ok ("github:", "", some "acme/proj/v1", "tarball")
  ∧ parseResName "github://acme/proj/v1/asset.bin"
      = .ok ("acme", "proj", some "v1", "asset.bin")
  ∧ parseResName "github://acme/proj/latest/asset.bin"
      = .ok ("acme", "proj", none, "asset.bin") :=
  ⟨rfl, rfl, rfl⟩

/-- C10: each `Body.read` call increases the size counter of the source by
exactly the length of the chunk it returns, and after any number of reads
starting from a fresh source, `Body.tell` equals the total length of all
chunks returned so far. -/
theorem body_read_size_accounting (k : Nat) (cs : List (List Nat)) :
    (∀ b : Body, (Body.read b).1.sizeDone = b.sizeDone + (Body.read b).2.length)
  ∧ (Body.readMany k ⟨cs, 0⟩).1.tell
      = (((Body.readMany k ⟨cs, 0⟩).2).map List.length).sum := by
  refine ⟨Body.read_sizeDone, ?_⟩
  have h := Body.readMany_sizeDone k ⟨cs, 0⟩
  simpa [Body.tell] using h


-- C6
theorem cancel_after_move_typeerror :
    movedRun.map (fun p => (p.2.lookup "/p", p.2.lookup ("/p" ++ bakExt),
      p.1.pathBak, p.1.pathPart))
      = .ok (some [2], some [1], some ("/p" ++ bakExt), none)
  ∧ movedThenCancelRun = .error .typeError := ⟨rfl, rfl⟩

-- C5 counterexample
theorem close_existing_same_content_counterexample :
    closeSameContentRun.map (fun p => p.1.update) = .ok false := rfl

-- C5 amended
theorem dst_close_case_analysis (d : DstSt) (fs : FS) (written : List Nat)
    (hobj : d.fileObj = some written)
    (hpp : d.pathPart = some (d.path ++ prtExt))
    (hbak : d.pathBak = none) :
    (d.hashOld = some (blake2bHex written) →
      d.close fs = .ok (closedSt d written, fs.del (d.path ++ prtExt)))
  ∧ (d.hashOld = none → d.force = false →
      (checkCurrent fs d.path).isSome = true →
      checkCurrent fs d.path ≠ some (blake2bHex written) →
      d.close fs = .error (.cancelExc (some (alreadyExistsMsg d.path))))
  ∧ (d.hashOld = none → d.force = false →
      checkCurrent fs d.path = some (blake2bHex written) →
      d.close fs = .ok (closedSt d written, fs.del (d.path ++ prtExt)))
  ∧ (d.hashOld ≠ some (blake2bHex written) →
      (d.force = true ∨ d.hashOld ≠ none ∨ checkCurrent fs d.path = none) →
      d.close fs = .ok (updateReqSt d written, fs)) := by
  refine ⟨?_, ?_, ?_, ?_⟩
  · intro h
    simp [DstSt.close, closedSt, hobj, h, DstSt.cancel, hpp, hbak]
  · intro h1 h2 h3 h4
    have hb : (d.hashOld == some (blake2bHex written)) = false := by
      simp [h1]
    have hb2 : (some (blake2bHex written) == checkCurrent fs d.path) = false :=
      beq_eq_false_iff_ne.mpr (fun he => h4 he.symm)
    simp [DstSt.close, hobj, hb, h1, h2, h3, hb2, DstSt.cancel, hpp, hbak]
  · intro h1 h2 h3
    have hb : (d.hashOld == some (blake2bHex written)) = false := by
      simp [h1]
    simp [DstSt.close, closedSt, hobj, hb, h1, h2, h3, DstSt.cancel, hpp, hbak]
  · intro h1 h2
    have hb : (d.hashOld == some (blake2bHex written)) = false :=
      beq_eq_false_iff_ne.mpr h1
    rcases h2 with h2 | h2 | h2
    · simp [DstSt.close, updateReqSt, hobj, hb, h2]
    · have hs : d.hashOld.isSome = true := Option.isSome_iff_ne_none.mpr h2
      simp [DstSt.close, updateReqSt, hobj, hb, hs]
    · simp [DstSt.close, updateReqSt, hobj, hb, h2]

-- C9
theorem close_unrecorded_same_digest_silent (d : DstSt) (fs : FS)
    (written cur : List Nat)
    (hobj : d.fileObj = some written)
    (hpp : d.pathPart = some (d.path ++ prtExt))
    (hbak : d.pathBak = none) (hupd : d.update = false)
    (hold : d.hashOld = none) (hforce : d.force = false)
    (hcur : fs.lookup d.path = some cur)
    (heq : blake2bHex written = blake2bHex cur) :
    d.close fs = .ok (closedSt d written, fs.del (d.path ++ prtExt))
  ∧ (closedSt d written).update = false
  ∧ (fs.del (d.path ++ prtExt)).lookup d.path = some cur := by
  refine ⟨?_, by simp [closedSt, hupd], ?_⟩
  · have hb : (d.hashOld == some (blake2bHex written)) = false := by
      simp [hold]
    simp [DstSt.close, closedSt, hobj, hb, hold, hforce, checkCurrent, hcur, heq,
      DstSt.cancel, hpp, hbak]
  · rw [FS.lookup_del_ne fs d.path (d.path ++ prtExt) (ne_append_prtExt d.path)]
    exact hcur

-- C7 counterexample
theorem conflict_cancel_signal_counterexample :
    dstInit conflictStore ⟨[("/p", [1])], []⟩ "/p" 1 none false
      = .error (.cancelExc (some (conflictMsg "/p")))
  ∧ memberExceptCaught (.cancelExc (some (conflictMsg "/p"))) = true :=
  ⟨rfl, rfl⟩

-- C7 amended
theorem conflict_raises_cancel_signal (store : Store) (fs : FS) (path : String)
    (resId : Nat) (mtime : Option Nat) (force : Bool) (row : DstRow)
    (h1 : store.getDst path = some row) (h2 : row.resId ≠ some resId) :
    dstInit store fs path resId mtime force
      = .error (.cancelExc (some (conflictMsg path)))
  ∧ memberExceptCaught (.cancelExc (some (conflictMsg path))) = true := by
  have hb : (some resId == row.resId) = false :=
    beq_eq_false_iff_ne.mpr (fun he => h2 he.symm)
  refine ⟨?_, rfl⟩
  simp [dstInit, h1, hb, DstSt.cancel]
  rfl

/-- Witness for the close case analysis: the update-required case at a
concrete unrecorded path that does not exist on disk. -/
theorem dst_close_case_analysis_witness :
    DstSt.close dstW ⟨[], []⟩ = .ok (updateReqSt dstW [5], ⟨[], []⟩) :=
  (dst_close_case_analysis dstW ⟨[], []⟩ [5] rfl rfl rfl).2.2.2
    (by decide) (Or.inr (Or.inr rfl))

/-- Witness for the silent close: writing `[3]` over an unrecorded `/q` that
already holds `[3]`. -/
theorem close_unrecorded_same_digest_silent_witness :
    DstSt.close dstQ fsQ = .ok (closedSt dstQ [3], fsQ.del ("/q" ++ prtExt))
  ∧ (closedSt dstQ [3]).update = false
  ∧ (fsQ.del ("/q" ++ prtExt)).lookup "/q" = some [3] :=
  close_unrecorded_same_digest_silent dstQ fsQ [3] [3]
    rfl rfl rfl rfl rfl rfl rfl rfl

/-- Witness for the conflict cancellation: constructing a destination for
`/p2`, a path claimed by resource 9, on behalf of resource 3. -/
theorem conflict_raises_cancel_signal_witness :
    dstInit conflictStoreW ⟨[], []⟩ "/p2" 3 none false
      = .error (.cancelExc (some (conflictMsg "/p2")))
  ∧ memberExceptCaught (.cancelExc (some (conflictMsg "/p2"))) = true :=
  conflict_raises_cancel_signal conflictStoreW ⟨[], []⟩ "/p2" 3 none false
    ⟨1, some 1, some 9, some 1, some "/p2", some ⟨[1]⟩,
     some 0, some 0, some 0, some 0, some 0, some 0⟩ (by decide) (by decide)

end Nun
